import Mathlib

set_option linter.unusedVariables false

/-! Shallow embedding of the typing-tracker extension's change-classification
and session-aggregation core (`utils.ts`, `types.ts`, and the richer
`EventHandler` variant), together with proofs about its specified behaviour.
Strings are Lean `String`s; JavaScript regex tests over the literal patterns
used by the source are embedded as executable character-list scans. -/

/-- `charsStartWith pre l` holds when `pre` is an initial run of `l`. -/
def charsStartWith : List Char → List Char → Bool
  | [], _ => true
  | _ :: _, [] => false
  | c :: cs, d :: ds => c == d && charsStartWith cs ds

/-- `charsContain sub l`: `sub` occurs contiguously inside `l`
(JavaScript `String.prototype.includes` at the char level). -/
def charsContain (sub : List Char) : List Char → Bool
  | [] => sub.isEmpty
  | c :: rest => charsStartWith sub (c :: rest) || charsContain sub rest

/-- JavaScript `s.includes(sub)`. -/
def strIncludes (s sub : String) : Bool :=
  charsContain sub.toList s.toList

/-- JavaScript `s.endsWith(suf)`; used for the `$`-anchored exclusion regexes. -/
def strEndsWith (s suf : String) : Bool :=
  charsStartWith suf.toList.reverse s.toList.reverse

/-- Number of matches of the regex `\r?\n` in a char list, scanning left to
right without overlap (the classifier's newline count). -/
def countNewlines : List Char → Nat
  | [] => 0
  | '\r' :: '\n' :: rest => countNewlines rest + 1
  | '\n' :: rest => countNewlines rest + 1
  | _ :: rest => countNewlines rest

/-- `countLines` from `utils.ts`: 0 for the empty string, otherwise the
number of `\r?\n`-separated segments (newline matches plus one). -/
def countLines (text : String) : Nat :=
  if text = "" then 0 else countNewlines text.toList + 1

/-- Replace every maximal whitespace run by a single space
(JavaScript `replace(/\s+/g, ' ')`); the flag records whether the previous
character was part of a whitespace run. -/
def collapseWhitespaceAux : Bool → List Char → List Char
  | _, [] => []
  | prevWS, c :: rest =>
    if c.isWhitespace then
      if prevWS then collapseWhitespaceAux true rest
      else ' ' :: collapseWhitespaceAux true rest
    else
      c :: collapseWhitespaceAux false rest

def collapseWhitespace (l : List Char) : List Char :=
  collapseWhitespaceAux false l

/-- JavaScript `String.prototype.trim` at the char level. -/
def trimChars (l : List Char) : List Char :=
  ((l.dropWhile Char.isWhitespace).reverse.dropWhile Char.isWhitespace).reverse

/-- JavaScript `String.prototype.trim` on strings. -/
def jsTrim (s : String) : String :=
  String.mk (trimChars s.toList)

/-- `extractSnippet` from `utils.ts`: whitespace-collapsed, trimmed, and
truncated to `maxLength` chars with a `...` suffix when truncated. -/
def extractSnippet (text : String) (maxLength : Nat) : String :=
  if text = "" then ""
  else
    let snippet := trimChars (collapseWhitespace text.toList)
    if maxLength < snippet.length then
      String.mk (snippet.take maxLength ++ "...".toList)
    else
      String.mk snippet

/-- The exclusion regexes of `shouldTrackFile` in `utils.ts`, each embedded as
an executable test on the path (all are literal substring or suffix tests). -/
def excludePatterns : List (String → Bool) :=
  [ fun p => strIncludes p "node_modules"
  , fun p => strIncludes p ".git/"
  , fun p => strIncludes p ".vscode"
  , fun p => strIncludes p ".next"
  , fun p => strIncludes p "dist/"
  , fun p => strIncludes p "build/"
  , fun p => strIncludes p "out/"
  , fun p => strEndsWith p ".log"
  , fun p => strEndsWith p ".lock" ]

/-- `shouldTrackFile` from `utils.ts`: a path is tracked unless some
exclusion pattern matches it. -/
def shouldTrackFile (filePath : String) : Bool :=
  !(excludePatterns.any fun pat => pat filePath)

/-- `ChangeEvent` from `types.ts` (richer variant, with the `isDelete` flag
used by the event handler). -/
structure ChangeEvent where
  text : String
  rangeLength : Nat
  isPaste : Bool
  isDelete : Bool
  lineCount : Nat
deriving Repr, DecidableEq

/-- `EventHandler.analyzeChange`: classify one raw text change given the
(cached) clipboard text. -/
def analyzeChange (clipboardText : String) (text : String) (rangeLength : Nat) :
    ChangeEvent :=
  let isDelete : Bool := decide (0 < rangeLength) && decide (text.length = 0)
  let lineCount : Nat :=
    if isDelete then max 1 (rangeLength / 50) else countLines text
  let hasMultipleLines : Bool := decide (1 < countNewlines text.toList)
  let isLargeInsertion : Bool := decide (100 < text.length)
  let isPureInsertion : Bool := decide (rangeLength = 0)
  let clipboardMatch : Bool := decide (0 < clipboardText.length) &&
    (clipboardText == text || strIncludes clipboardText text ||
      strIncludes text (jsTrim clipboardText))
  let isPaste : Bool :=
    !isDelete && isPureInsertion && clipboardMatch &&
      (hasMultipleLines || isLargeInsertion)
  { text := text, rangeLength := rangeLength, isPaste := isPaste,
    isDelete := isDelete, lineCount := lineCount }

/-- `FileSession` from `types.ts`, restricted to the fields the event handler
mutates (timestamps are inert bookkeeping and are omitted). -/
structure FileSession where
  fileName : String
  filePath : String
  typedLines : Nat
  pastedLines : Nat
  deletedLines : Nat
  contentSnippets : List String
  initialLineCount : Nat
  pendingChanges : Bool
deriving Repr, DecidableEq

/-- One raw editor content change: inserted text and replaced-range length. -/
structure RawChange where
  text : String
  rangeLength : Nat
deriving Repr, DecidableEq

/-- `EventHandler.getOrCreateSession`, creation branch: fresh session with
all counters zero and `initialLineCount` from the document. -/
def getOrCreateSession (fileName filePath : String) (documentLineCount : Nat) :
    FileSession :=
  { fileName := fileName, filePath := filePath, typedLines := 0,
    pastedLines := 0, deletedLines := 0, contentSnippets := [],
    initialLineCount := documentLineCount, pendingChanges := false }

/-- `EventHandler.updateSession`: route the event's `lineCount` to one
counter, then push a normalized snippet when the text is non-blank, shifting
the oldest entry out beyond capacity 5. -/
def updateSession (s : FileSession) (e : ChangeEvent) : FileSession :=
  let s1 :=
    if e.isDelete then { s with deletedLines := s.deletedLines + e.lineCount }
    else if e.isPaste then { s with pastedLines := s.pastedLines + e.lineCount }
    else { s with typedLines := s.typedLines + e.lineCount }
  if 0 < (jsTrim e.text).length then
    let pushed := s1.contentSnippets ++ [extractSnippet e.text 100]
    { s1 with contentSnippets := if 5 < pushed.length then pushed.tail else pushed }
  else s1

/-- `EventHandler.handleTextChange`, per-session part: with no content
changes the handler returns before touching the session; otherwise every
change is classified and applied, then `pendingChanges` is set. -/
def handleTextChange (s : FileSession) (clipboardText : String)
    (changes : List RawChange) : FileSession :=
  if changes.isEmpty then s
  else
    let s1 := changes.foldl
      (fun acc ch => updateSession acc (analyzeChange clipboardText ch.text ch.rangeLength)) s
    { s1 with pendingChanges := true }

/-- `EventHandler.saveSession` as a state transformer over the transport
outcome: skip when nothing was typed or pasted; on confirmed success reset
all counters, snippets and `pendingChanges`; on failure leave everything. -/
def saveSession (s : FileSession) (sendSuccess : Bool) : FileSession :=
  if s.typedLines = 0 ∧ s.pastedLines = 0 then s
  else if sendSuccess then
    { s with
      typedLines := 0,
      pastedLines := 0,
      deletedLines := 0,
      contentSnippets := [],
      pendingChanges := false }
  else s

/-- The counter-reconciliation block of `EventHandler.handleDocumentSave`
(and the identical block of `handleDocumentClose`): redistribute a positive
actual line delta by the typed:pasted ratio, or attribute it all to typed
when nothing was tracked. -/
def reconcileCounters (s : FileSession) (currentLineCount : Nat) : FileSession :=
  let actualLineChange : Int := (currentLineCount : Int) - (s.initialLineCount : Int)
  if 0 < actualLineChange then
    let total := s.typedLines + s.pastedLines
    if 0 < total then
      let typedRatio : ℚ := (s.typedLines : ℚ) / (total : ℚ)
      let pastedRatio : ℚ := (s.pastedLines : ℚ) / (total : ℚ)
      { s with
        typedLines := (round ((actualLineChange : ℚ) * typedRatio)).toNat,
        pastedLines := (round ((actualLineChange : ℚ) * pastedRatio)).toNat }
    else
      { s with typedLines := actualLineChange.toNat, pastedLines := 0 }
  else s

/-- Reconciliation as performed on save or close: adjust the counters, then
reset `initialLineCount` to the editor's current count for the next cycle. -/
def reconcile (s : FileSession) (currentLineCount : Nat) : FileSession :=
  { reconcileCounters s currentLineCount with initialLineCount := currentLineCount }

/-- `EventHandler.handleDocumentSave`, per-session part: only a session with
`pendingChanges` is reconciled, flushed, and has `initialLineCount` reset. -/
def handleDocumentSave (s : FileSession) (currentLineCount : Nat)
    (sendSuccess : Bool) : FileSession :=
  if s.pendingChanges then
    { saveSession (reconcileCounters s currentLineCount) sendSuccess with
      initialLineCount := currentLineCount }
  else s

/-- The per-session operations the event handler can perform between
observation points: a text-change batch (with the clipboard contents the
classifier consults), a document save (with the document's current line
count and the transport outcome), and a debounced flush. -/
inductive SessionOp where
  | change (clipboardText : String) (changes : List RawChange)
  | save (currentLineCount : Nat) (sendSuccess : Bool)
  | flush (sendSuccess : Bool)
deriving Repr

/-- One step of the per-session state machine. A debounced flush
(`saveAllPendingSessions`) only touches sessions with `pendingChanges`. -/
def sessionStep (s : FileSession) : SessionOp → FileSession
  | .change clip chs => handleTextChange s clip chs
  | .save cur succ => handleDocumentSave s cur succ
  | .flush succ => if s.pendingChanges then saveSession s succ else s

/-- Run a list of operations from a freshly created session. -/
def runSession (fileName filePath : String) (documentLineCount : Nat)
    (ops : List SessionOp) : FileSession :=
  ops.foldl sessionStep (getOrCreateSession fileName filePath documentLineCount)

/-- C6: a change is a delete exactly when it removes a non-empty range and
inserts nothing, and a delete's line count is `max 1 (rangeLength / 50)`;
in particular `rangeLength = 120` with empty text gives a delete with
`lineCount = 2`. -/
theorem delete_classification (clip text : String) (rangeLength : Nat) :
    ((analyzeChange clip text rangeLength).isDelete = true ↔
      (0 < rangeLength ∧ text.length = 0)) ∧
    ((analyzeChange clip text rangeLength).isDelete = true →
      (analyzeChange clip text rangeLength).lineCount = max 1 (rangeLength / 50)) ∧
    ((analyzeChange "" "" 120).isDelete = true ∧
      (analyzeChange "" "" 120).lineCount = 2) := by
  refine ⟨?_, ?_, by decide⟩
  · simp [analyzeChange]
  · intro h
    simp only [analyzeChange, Bool.and_eq_true, decide_eq_true_eq] at h ⊢
    simp [h]

theorem delete_classification_spot :
    (analyzeChange "x" "" 120).isDelete = true ∧
    (analyzeChange "x" "" 120).lineCount = max 1 (120 / 50) :=
  ⟨((delete_classification "x" "" 120).1).mpr (by decide),
    (delete_classification "x" "" 120).2.1
      (((delete_classification "x" "" 120).1).mpr (by decide))⟩

/-- C4: a pure insertion with at most one newline and at most 100 characters
is never classified as a paste, whatever the clipboard holds. -/
theorem small_insertion_never_paste (clip text : String)
    (h1 : countNewlines text.toList ≤ 1) (h2 : text.length ≤ 100) :
    (analyzeChange clip text 0).isPaste = false := by
  simp only [analyzeChange, Bool.and_eq_false_iff, Bool.or_eq_false_iff,
    decide_eq_false_iff_not, Nat.not_lt]
  exact Or.inr ⟨h1, h2⟩

theorem small_insertion_never_paste_spot :
    countNewlines "x".toList ≤ 1 ∧ "x".length ≤ 100 ∧
      (analyzeChange "x" "x" 0).isPaste = false :=
  ⟨by decide, by decide, small_insertion_never_paste "x" "x" (by decide) (by decide)⟩

/-- C5: a failed transport send during a flush leaves every piece of session
state (typed, pasted and deleted counters, snippets, `pendingChanges`)
exactly as it was, so the next trigger retries with the same data. -/
theorem flush_failure_atomic (s : FileSession) :
    (saveSession s false).typedLines = s.typedLines ∧
    (saveSession s false).pastedLines = s.pastedLines ∧
    (saveSession s false).deletedLines = s.deletedLines ∧
    (saveSession s false).contentSnippets = s.contentSnippets ∧
    (saveSession s false).pendingChanges = s.pendingChanges := by
  unfold saveSession
  split <;> simp

/-- C9: `shouldTrackFile` rejects a path exactly when one of the exclusion
patterns matches: `node_modules`, `.git/`, `.vscode`, `.next`, `dist/`,
`build/` or `out/` occurring in the path, or a `.log` / `.lock` suffix. -/
theorem shouldTrackFile_excluded_iff (p : String) :
    shouldTrackFile p = false ↔
      (strIncludes p "node_modules" = true ∨ strIncludes p ".git/" = true ∨
        strIncludes p ".vscode" = true ∨ strIncludes p ".next" = true ∨
        strIncludes p "dist/" = true ∨ strIncludes p "build/" = true ∨
        strIncludes p "out/" = true ∨ strEndsWith p ".log" = true ∨
        strEndsWith p ".lock" = true) := by
  simp only [shouldTrackFile, Bool.not_eq_false', excludePatterns, List.any_cons,
    List.any_nil, Bool.or_eq_true, Bool.or_false]

theorem shouldTrackFile_excluded_iff_spot :
    shouldTrackFile "project/node_modules/a.js" = false ∧
    shouldTrackFile "project/src/a.ts" = true :=
  ⟨(shouldTrackFile_excluded_iff "project/node_modules/a.js").mpr
      (Or.inl (by decide)),
    by decide⟩

/-- C3: the classifier reports a paste exactly when the change is not a
delete, is a pure insertion, the clipboard is non-empty and matches the
inserted text (equality, clipboard-contains-text, or text-contains-trimmed-
clipboard), and the text has more than one newline or more than 100
characters; in particular inserting `"a\nb\nc\nd"` with that exact clipboard
is a paste with `lineCount = 4`. -/
theorem paste_classification (clip text : String) (rangeLength : Nat) :
    ((analyzeChange clip text rangeLength).isPaste = true ↔
      (¬(0 < rangeLength ∧ text.length = 0) ∧ rangeLength = 0 ∧
        0 < clip.length ∧
        (clip = text ∨ strIncludes clip text = true ∨
          strIncludes text (jsTrim clip) = true) ∧
        (1 < countNewlines text.toList ∨ 100 < text.length))) ∧
    ((analyzeChange "a\nb\nc\nd" "a\nb\nc\nd" 0).isPaste = true ∧
      (analyzeChange "a\nb\nc\nd" "a\nb\nc\nd" 0).lineCount = 4) := by
  constructor
  · constructor
    · intro h
      simp only [analyzeChange, Bool.and_eq_true, Bool.or_eq_true,
        Bool.not_eq_true', Bool.and_eq_false_iff, decide_eq_true_eq,
        decide_eq_false_iff_not, beq_iff_eq] at h
      obtain ⟨⟨⟨ha, hb⟩, hclen, hmatch⟩, hsz⟩ := h
      exact ⟨by omega, hb, hclen, or_assoc.mp hmatch, hsz⟩
    · rintro ⟨h1, h2, h3, h4, h5⟩
      simp only [analyzeChange, Bool.and_eq_true, Bool.or_eq_true,
        Bool.not_eq_true', Bool.and_eq_false_iff, decide_eq_true_eq,
        decide_eq_false_iff_not, beq_iff_eq]
      exact ⟨⟨⟨Or.inl (by omega), h2⟩, h3, or_assoc.mpr h4⟩, h5⟩
  · constructor
    · decide
    · decide

theorem paste_classification_spot :
    (analyzeChange "p\nq\nr" "p\nq\nr" 0).isPaste = true :=
  ((paste_classification "p\nq\nr" "p\nq\nr" 0).1).mpr
    ⟨by decide, rfl, by decide, Or.inl rfl, Or.inl (by decide)⟩


/-- A rational that is nonnegative rounds to a nonnegative integer. -/
theorem round_nonneg_of_nonneg {x : ℚ} (hx : 0 ≤ x) : 0 ≤ round x := by
  rw [round_eq]
  exact Int.floor_nonneg.mpr (by linarith)

/-- In the positive-delta, positive-total branch, the reconciled counters are
the independently rounded proportional shares of the actual delta. -/
theorem reconcileCounters_pos_total (s : FileSession) (cur : Nat)
    (hd : (0 : ℤ) < (cur : ℤ) - (s.initialLineCount : ℤ))
    (ht : 0 < s.typedLines + s.pastedLines) :
    ((reconcileCounters s cur).typedLines : ℤ) =
        round ((((cur : ℤ) - (s.initialLineCount : ℤ) : ℤ) : ℚ) * (s.typedLines : ℚ) /
          ((s.typedLines : ℚ) + (s.pastedLines : ℚ))) ∧
      ((reconcileCounters s cur).pastedLines : ℤ) =
        round ((((cur : ℤ) - (s.initialLineCount : ℤ) : ℤ) : ℚ) * (s.pastedLines : ℚ) /
          ((s.typedLines : ℚ) + (s.pastedLines : ℚ))) := by
  have hdQ : (0 : ℚ) ≤ (((cur : ℤ) - (s.initialLineCount : ℤ) : ℤ) : ℚ) := by
    exact_mod_cast le_of_lt hd
  have htQ : (0 : ℚ) < ((s.typedLines + s.pastedLines : ℕ) : ℚ) := by
    exact_mod_cast ht
  constructor
  · have hnn : (0 : ℚ) ≤ (((cur : ℤ) - (s.initialLineCount : ℤ) : ℤ) : ℚ) *
        ((s.typedLines : ℚ) / ((s.typedLines + s.pastedLines : ℕ) : ℚ)) := by
      have : (0 : ℚ) ≤ (s.typedLines : ℚ) / ((s.typedLines + s.pastedLines : ℕ) : ℚ) :=
        div_nonneg (by positivity) (le_of_lt htQ)
      exact mul_nonneg hdQ this
    simp only [reconcileCounters, if_pos hd, if_pos ht]
    rw [Int.toNat_of_nonneg (round_nonneg_of_nonneg hnn)]
    congr 1
    push_cast
    ring
  · have hnn : (0 : ℚ) ≤ (((cur : ℤ) - (s.initialLineCount : ℤ) : ℤ) : ℚ) *
        ((s.pastedLines : ℚ) / ((s.typedLines + s.pastedLines : ℕ) : ℚ)) := by
      have : (0 : ℚ) ≤ (s.pastedLines : ℚ) / ((s.typedLines + s.pastedLines : ℕ) : ℚ) :=
        div_nonneg (by positivity) (le_of_lt htQ)
      exact mul_nonneg hdQ this
    simp only [reconcileCounters, if_pos hd, if_pos ht]
    rw [Int.toNat_of_nonneg (round_nonneg_of_nonneg hnn)]
    congr 1
    push_cast
    ring

/-- C2: on save or close, reconciliation redistributes a positive actual
delta proportionally with independent rounding, attributes it all to typed
when nothing was tracked, leaves the counters alone for a non-positive
delta, and always resets `initialLineCount` to the current count. -/
theorem reconcile_spec (s : FileSession) (cur : Nat) :
    ((0 : ℤ) < (cur : ℤ) - (s.initialLineCount : ℤ) →
        0 < s.typedLines + s.pastedLines →
        ((reconcile s cur).typedLines : ℤ) =
            round ((((cur : ℤ) - (s.initialLineCount : ℤ) : ℤ) : ℚ) * (s.typedLines : ℚ) /
              ((s.typedLines : ℚ) + (s.pastedLines : ℚ))) ∧
          ((reconcile s cur).pastedLines : ℤ) =
            round ((((cur : ℤ) - (s.initialLineCount : ℤ) : ℤ) : ℚ) * (s.pastedLines : ℚ) /
              ((s.typedLines : ℚ) + (s.pastedLines : ℚ)))) ∧
    ((0 : ℤ) < (cur : ℤ) - (s.initialLineCount : ℤ) →
        s.typedLines + s.pastedLines = 0 →
        ((reconcile s cur).typedLines : ℤ) = (cur : ℤ) - (s.initialLineCount : ℤ) ∧
          (reconcile s cur).pastedLines = 0) ∧
    ((cur : ℤ) - (s.initialLineCount : ℤ) ≤ 0 →
        (reconcile s cur).typedLines = s.typedLines ∧
          (reconcile s cur).pastedLines = s.pastedLines) ∧
    (reconcile s cur).initialLineCount = cur := by
  refine ⟨?_, ?_, ?_, rfl⟩
  · intro hd ht
    exact reconcileCounters_pos_total s cur hd ht
  · intro hd ht
    simp only [reconcile, reconcileCounters, if_pos hd, if_neg (by omega : ¬0 < s.typedLines + s.pastedLines)]
    exact ⟨Int.toNat_of_nonneg (le_of_lt hd), trivial⟩
  · intro hd
    simp only [reconcile, reconcileCounters, if_neg (not_lt.mpr hd)]
    constructor <;> trivial

theorem reconcile_spec_spot :
    (reconcile (getOrCreateSession "a.ts" "/w/a.ts" 100) 90).typedLines = 0 ∧
    (reconcile { getOrCreateSession "a.ts" "/w/a.ts" 100 with
        typedLines := 10, pendingChanges := true } 115).typedLines = 15 ∧
    (reconcile { getOrCreateSession "a.ts" "/w/a.ts" 100 with
        typedLines := 10, pendingChanges := true } 115).pastedLines = 0 ∧
    (reconcile { getOrCreateSession "a.ts" "/w/a.ts" 100 with
        typedLines := 10, pendingChanges := true } 115).initialLineCount = 115 := by
  have h1 := (reconcile_spec (getOrCreateSession "a.ts" "/w/a.ts" 100) 90).2.2.1
    (by norm_num [getOrCreateSession])
  have h2 := (reconcile_spec { getOrCreateSession "a.ts" "/w/a.ts" 100 with
      typedLines := 10, pendingChanges := true } 115).1
    (by norm_num [getOrCreateSession]) (by norm_num [getOrCreateSession])
  have h4 := (reconcile_spec { getOrCreateSession "a.ts" "/w/a.ts" 100 with
      typedLines := 10, pendingChanges := true } 115).2.2.2
  refine ⟨h1.1, ?_, ?_, h4⟩
  · have := h2.1
    simp only [getOrCreateSession] at this ⊢
    norm_num at this
    exact_mod_cast this
  · have := h2.2
    simp only [getOrCreateSession] at this ⊢
    norm_num at this
    exact_mod_cast this


/-- C7: when the actual delta is positive and something was tracked, the two
independently rounded proportional shares recombine to within one line of
the actual delta. -/
theorem reconcile_conservation (s : FileSession) (cur : Nat)
    (hd : s.initialLineCount < cur) (ht : 0 < s.typedLines + s.pastedLines) :
    |((reconcile s cur).typedLines : ℤ) + ((reconcile s cur).pastedLines : ℤ) -
      ((cur : ℤ) - (s.initialLineCount : ℤ))| ≤ 1 := by
  have hdZ : (0 : ℤ) < (cur : ℤ) - (s.initialLineCount : ℤ) := by omega
  obtain ⟨h1, h2⟩ := reconcileCounters_pos_total s cur hdZ ht
  have e1 : ((reconcile s cur).typedLines : ℤ) = ((reconcileCounters s cur).typedLines : ℤ) := rfl
  have e2 : ((reconcile s cur).pastedLines : ℤ) = ((reconcileCounters s cur).pastedLines : ℤ) := rfl
  rw [e1, e2] at *
  set d : ℤ := (cur : ℤ) - (s.initialLineCount : ℤ) with hdef
  set A : ℚ := (d : ℚ) * (s.typedLines : ℚ) / ((s.typedLines : ℚ) + (s.pastedLines : ℚ)) with hA
  set B : ℚ := (d : ℚ) * (s.pastedLines : ℚ) / ((s.typedLines : ℚ) + (s.pastedLines : ℚ)) with hB
  have hS : ((s.typedLines : ℚ) + (s.pastedLines : ℚ)) ≠ 0 := by
    have : (0 : ℚ) < ((s.typedLines + s.pastedLines : ℕ) : ℚ) := by exact_mod_cast ht
    push_cast at this
    linarith
  have hAB : A + B = (d : ℚ) := by
    rw [hA, hB]
    field_simp
    ring
  have key : |((round A : ℤ) : ℚ) + ((round B : ℤ) : ℚ) - (d : ℚ)| ≤ 1 := by
    have hra := abs_sub_round A
    have hrb := abs_sub_round B
    have hsplit : ((round A : ℤ) : ℚ) + ((round B : ℤ) : ℚ) - (d : ℚ) =
        (((round A : ℤ) : ℚ) - A) + (((round B : ℤ) : ℚ) - B) := by
      rw [← hAB]
      ring
    rw [hsplit]
    calc |(((round A : ℤ) : ℚ) - A) + (((round B : ℤ) : ℚ) - B)|
        ≤ |((round A : ℤ) : ℚ) - A| + |((round B : ℤ) : ℚ) - B| := abs_add _ _
      _ ≤ 1 / 2 + 1 / 2 := by
          rw [abs_sub_comm (((round A : ℤ) : ℚ)) A, abs_sub_comm (((round B : ℤ) : ℚ)) B]
          exact add_le_add hra hrb
      _ = 1 := by norm_num
  rw [h1, h2]
  have : ((|round A + round B - d| : ℤ) : ℚ) ≤ ((1 : ℤ) : ℚ) := by
    push_cast
    exact key
  exact_mod_cast this

theorem reconcile_conservation_spot :
    ({ getOrCreateSession "b.ts" "/w/b.ts" 0 with
        typedLines := 1, pastedLines := 1 } : FileSession).initialLineCount < 3 ∧
    |((reconcile { getOrCreateSession "b.ts" "/w/b.ts" 0 with
        typedLines := 1, pastedLines := 1 } 3).typedLines : ℤ) +
      ((reconcile { getOrCreateSession "b.ts" "/w/b.ts" 0 with
        typedLines := 1, pastedLines := 1 } 3).pastedLines : ℤ) -
      ((3 : ℤ) - (({ getOrCreateSession "b.ts" "/w/b.ts" 0 with
        typedLines := 1, pastedLines := 1 } : FileSession).initialLineCount : ℤ))| ≤ 1 :=
  ⟨by norm_num [getOrCreateSession],
    reconcile_conservation _ 3 (by norm_num [getOrCreateSession])
      (by norm_num [getOrCreateSession])⟩


/-- The one-directional flag invariant the handler actually maintains:
whenever the typed or pasted counter is positive the session is marked as
having pending changes. -/
def pendingCoversCounters (s : FileSession) : Prop :=
  0 < s.typedLines + s.pastedLines → s.pendingChanges = true

/-- The snippet buffer stays within its capacity of 5. -/
def snippetsBounded (s : FileSession) : Prop :=
  s.contentSnippets.length ≤ 5

theorem reconcileCounters_pendingChanges (s : FileSession) (cur : Nat) :
    (reconcileCounters s cur).pendingChanges = s.pendingChanges := by
  simp only [reconcileCounters]
  split
  · split <;> rfl
  · rfl

theorem reconcileCounters_contentSnippets (s : FileSession) (cur : Nat) :
    (reconcileCounters s cur).contentSnippets = s.contentSnippets := by
  simp only [reconcileCounters]
  split
  · split <;> rfl
  · rfl

/-- The snippet buffer after `updateSession`, independent of which counter
the event feeds. -/
theorem updateSession_contentSnippets (s : FileSession) (e : ChangeEvent) :
    (updateSession s e).contentSnippets =
      if 0 < (jsTrim e.text).length then
        if 5 < (s.contentSnippets ++ [extractSnippet e.text 100]).length then
          (s.contentSnippets ++ [extractSnippet e.text 100]).tail
        else s.contentSnippets ++ [extractSnippet e.text 100]
      else s.contentSnippets := by
  by_cases h1 : e.isDelete = true <;> by_cases h2 : e.isPaste = true <;>
    simp [updateSession, h1, h2] <;> split <;> rfl

theorem updateSession_snippetsBounded (s : FileSession) (e : ChangeEvent)
    (h : snippetsBounded s) : snippetsBounded (updateSession s e) := by
  unfold snippetsBounded at *
  rw [updateSession_contentSnippets]
  split
  · split
    · simp only [List.length_tail, List.length_append, List.length_cons,
        List.length_nil]
      omega
    · rename_i hle
      simp only [List.length_append, List.length_cons, List.length_nil] at hle ⊢
      omega
  · exact h

theorem saveSession_invariants (s : FileSession) (succ : Bool)
    (h1 : pendingCoversCounters s) (h2 : snippetsBounded s) :
    pendingCoversCounters (saveSession s succ) ∧ snippetsBounded (saveSession s succ) := by
  unfold saveSession
  split
  · exact ⟨h1, h2⟩
  · split
    · constructor
      · intro hc
        simp at hc
      · unfold snippetsBounded
        simp
    · exact ⟨h1, h2⟩

theorem foldl_updateSession_bounded (clip : String) (chs : List RawChange)
    (s : FileSession) (h : snippetsBounded s) :
    snippetsBounded (List.foldl
      (fun acc ch => updateSession acc (analyzeChange clip ch.text ch.rangeLength)) s chs) := by
  induction chs generalizing s with
  | nil => exact h
  | cons c rest ih => exact ih _ (updateSession_snippetsBounded _ _ h)

theorem handleTextChange_invariants (s : FileSession) (clip : String)
    (chs : List RawChange) (h1 : pendingCoversCounters s) (h2 : snippetsBounded s) :
    pendingCoversCounters (handleTextChange s clip chs) ∧
      snippetsBounded (handleTextChange s clip chs) := by
  unfold handleTextChange
  split
  · exact ⟨h1, h2⟩
  · constructor
    · intro _
      rfl
    · have := foldl_updateSession_bounded clip chs s h2
      unfold snippetsBounded at this ⊢
      simpa using this

theorem handleDocumentSave_invariants (s : FileSession) (cur : Nat) (succ : Bool)
    (h1 : pendingCoversCounters s) (h2 : snippetsBounded s) :
    pendingCoversCounters (handleDocumentSave s cur succ) ∧
      snippetsBounded (handleDocumentSave s cur succ) := by
  unfold handleDocumentSave
  split
  · rename_i hp
    have hr1 : pendingCoversCounters (reconcileCounters s cur) := by
      intro _
      rw [reconcileCounters_pendingChanges]
      exact hp
    have hr2 : snippetsBounded (reconcileCounters s cur) := by
      unfold snippetsBounded
      rw [reconcileCounters_contentSnippets]
      exact h2
    obtain ⟨hs1, hs2⟩ := saveSession_invariants _ succ hr1 hr2
    constructor
    · intro hc
      exact hs1 hc
    · exact hs2
  · exact ⟨h1, h2⟩

theorem sessionStep_invariants (s : FileSession) (op : SessionOp)
    (h1 : pendingCoversCounters s) (h2 : snippetsBounded s) :
    pendingCoversCounters (sessionStep s op) ∧ snippetsBounded (sessionStep s op) := by
  cases op with
  | change clip chs => exact handleTextChange_invariants s clip chs h1 h2
  | save cur succ => exact handleDocumentSave_invariants s cur succ h1 h2
  | flush succ =>
      simp only [sessionStep]
      split
      · exact saveSession_invariants s succ h1 h2
      · exact ⟨h1, h2⟩

/-- Both invariants hold in every state reachable from a fresh session. -/
theorem runSession_invariants (fn fp : String) (n : Nat) (ops : List SessionOp) :
    pendingCoversCounters (runSession fn fp n ops) ∧
      snippetsBounded (runSession fn fp n ops) := by
  unfold runSession
  have base1 : pendingCoversCounters (getOrCreateSession fn fp n) := by
    intro h
    simp [getOrCreateSession] at h
  have base2 : snippetsBounded (getOrCreateSession fn fp n) := by
    unfold snippetsBounded
    simp [getOrCreateSession]
  generalize getOrCreateSession fn fp n = s0 at base1 base2
  induction ops generalizing s0 with
  | nil => exact ⟨base1, base2⟩
  | cons op rest ih =>
      obtain ⟨p1, p2⟩ := sessionStep_invariants s0 op base1 base2
      exact ih _ p1 p2


/-- C1 counterexample: a delete-only change batch refutes the claimed
equivalence: after a complete `handleTextChange` holding a single deletion,
`pendingChanges` is true while `typedLines + pastedLines = 0`. -/
theorem pending_flag_iff_counterexample :
    (handleTextChange (getOrCreateSession "c.ts" "/w/c.ts" 10) ""
        [{ text := "", rangeLength := 120 }]).pendingChanges = true ∧
    (handleTextChange (getOrCreateSession "c.ts" "/w/c.ts" 10) ""
        [{ text := "", rangeLength := 120 }]).typedLines +
      (handleTextChange (getOrCreateSession "c.ts" "/w/c.ts" 10) ""
        [{ text := "", rangeLength := 120 }]).pastedLines = 0 := by
  constructor
  · rfl
  · rfl

/-- C1 (amended): in every reachable session state, positive `typedLines +
pastedLines` implies `pendingChanges = true`; the converse of the claimed
equivalence fails, since delete-only or zero-line change batches also set
`pendingChanges`. -/
theorem pending_covers_counters (fn fp : String) (n : Nat) (ops : List SessionOp)
    (h : 0 < (runSession fn fp n ops).typedLines +
      (runSession fn fp n ops).pastedLines) :
    (runSession fn fp n ops).pendingChanges = true :=
  (runSession_invariants fn fp n ops).1 h

theorem pending_covers_counters_spot :
    0 < (runSession "d.ts" "/w/d.ts" 1
        [SessionOp.change "x" [{ text := "x", rangeLength := 0 }]]).typedLines +
      (runSession "d.ts" "/w/d.ts" 1
        [SessionOp.change "x" [{ text := "x", rangeLength := 0 }]]).pastedLines ∧
    (runSession "d.ts" "/w/d.ts" 1
        [SessionOp.change "x" [{ text := "x", rangeLength := 0 }]]).pendingChanges = true :=
  ⟨by decide, pending_covers_counters "d.ts" "/w/d.ts" 1 _ (by decide)⟩


/-- C8: in every reachable state the snippet buffer holds at most 5 entries;
a push into a full buffer evicts the oldest entry (FIFO); and a snippet is
pushed only for non-blank inserted text, as the whitespace-normalized,
truncated `extractSnippet` of that text. -/
theorem snippet_capacity_and_fifo (fn fp : String) (n : Nat) (ops : List SessionOp)
    (s : FileSession) (e : ChangeEvent) :
    (runSession fn fp n ops).contentSnippets.length ≤ 5 ∧
    (s.contentSnippets.length = 5 → 0 < (jsTrim e.text).length →
      (updateSession s e).contentSnippets =
        s.contentSnippets.tail ++ [extractSnippet e.text 100]) ∧
    ((jsTrim e.text).length = 0 →
      (updateSession s e).contentSnippets = s.contentSnippets) := by
  refine ⟨(runSession_invariants fn fp n ops).2, ?_, ?_⟩
  · intro h5 hnb
    rw [updateSession_contentSnippets, if_pos hnb,
      if_pos (by simp [List.length_append, h5])]
    cases hcs : s.contentSnippets with
    | nil => rw [hcs] at h5; simp at h5
    | cons a l => rfl
  · intro hb
    rw [updateSession_contentSnippets, if_neg (by omega)]

theorem snippet_capacity_and_fifo_spot :
    ({ getOrCreateSession "e.ts" "/w/e.ts" 0 with
        contentSnippets := ["s1", "s2", "s3", "s4", "s5"] } : FileSession).contentSnippets.length = 5 ∧
    0 < (jsTrim "zz").length ∧
    (updateSession { getOrCreateSession "e.ts" "/w/e.ts" 0 with
        contentSnippets := ["s1", "s2", "s3", "s4", "s5"] }
      { text := "zz", rangeLength := 0, isPaste := false, isDelete := false,
        lineCount := 1 }).contentSnippets =
      ["s2", "s3", "s4", "s5", extractSnippet "zz" 100] := by
  refine ⟨by decide, by decide, ?_⟩
  have h := (snippet_capacity_and_fifo "e.ts" "/w/e.ts" 0 []
    { getOrCreateSession "e.ts" "/w/e.ts" 0 with
        contentSnippets := ["s1", "s2", "s3", "s4", "s5"] }
    { text := "zz", rangeLength := 0, isPaste := false, isDelete := false,
      lineCount := 1 }).2.1 (by decide) (by decide)
  simpa using h

/-- The typed counter after `updateSession`, by event kind. -/
theorem updateSession_typedLines (s : FileSession) (e : ChangeEvent) :
    (updateSession s e).typedLines =
      if e.isDelete = true then s.typedLines
      else if e.isPaste = true then s.typedLines
      else s.typedLines + e.lineCount := by
  by_cases h1 : e.isDelete = true <;> by_cases h2 : e.isPaste = true <;>
    simp [updateSession, h1, h2] <;> split <;> rfl

/-- The pasted counter after `updateSession`, by event kind. -/
theorem updateSession_pastedLines (s : FileSession) (e : ChangeEvent) :
    (updateSession s e).pastedLines =
      if e.isDelete = true then s.pastedLines
      else if e.isPaste = true then s.pastedLines + e.lineCount
      else s.pastedLines := by
  by_cases h1 : e.isDelete = true <;> by_cases h2 : e.isPaste = true <;>
    simp [updateSession, h1, h2] <;> split <;> rfl

/-- The deleted counter after `updateSession`, by event kind. -/
theorem updateSession_deletedLines (s : FileSession) (e : ChangeEvent) :
    (updateSession s e).deletedLines =
      if e.isDelete = true then s.deletedLines + e.lineCount
      else s.deletedLines := by
  by_cases h1 : e.isDelete = true <;> by_cases h2 : e.isPaste = true <;>
    simp [updateSession, h1, h2] <;> split <;> rfl

/-- The empty pure insertion classifies as neither delete nor paste and has
line count zero. -/
theorem analyzeChange_empty_text (clip : String) :
    (analyzeChange clip "" 0).isDelete = false ∧
    (analyzeChange clip "" 0).isPaste = false ∧
    (analyzeChange clip "" 0).lineCount = 0 := by
  have h1 : countNewlines ("" : String).toList = 0 := rfl
  have h2 : ("" : String).length = 0 := rfl
  refine ⟨rfl, ?_, rfl⟩
  simp [analyzeChange, h1, h2, countNewlines]


/-- C10: a classified event is never both a delete and a paste; applying it
to a session increments exactly the matching counter by its (nonnegative)
`lineCount`, leaving the other two counters unchanged; and an empty pure
insertion has `lineCount = 0` and changes no counter. -/
theorem classified_update_frame (clip text : String) (r : Nat) (s : FileSession) :
    (¬((analyzeChange clip text r).isDelete = true ∧
        (analyzeChange clip text r).isPaste = true)) ∧
    ((analyzeChange clip text r).isDelete = true →
      (updateSession s (analyzeChange clip text r)).deletedLines =
          s.deletedLines + (analyzeChange clip text r).lineCount ∧
        (updateSession s (analyzeChange clip text r)).typedLines = s.typedLines ∧
        (updateSession s (analyzeChange clip text r)).pastedLines = s.pastedLines) ∧
    ((analyzeChange clip text r).isDelete = false →
      (analyzeChange clip text r).isPaste = true →
      (updateSession s (analyzeChange clip text r)).pastedLines =
          s.pastedLines + (analyzeChange clip text r).lineCount ∧
        (updateSession s (analyzeChange clip text r)).typedLines = s.typedLines ∧
        (updateSession s (analyzeChange clip text r)).deletedLines = s.deletedLines) ∧
    ((analyzeChange clip text r).isDelete = false →
      (analyzeChange clip text r).isPaste = false →
      (updateSession s (analyzeChange clip text r)).typedLines =
          s.typedLines + (analyzeChange clip text r).lineCount ∧
        (updateSession s (analyzeChange clip text r)).pastedLines = s.pastedLines ∧
        (updateSession s (analyzeChange clip text r)).deletedLines = s.deletedLines) ∧
    ((analyzeChange clip "" 0).lineCount = 0 ∧
      (updateSession s (analyzeChange clip "" 0)).typedLines = s.typedLines ∧
      (updateSession s (analyzeChange clip "" 0)).pastedLines = s.pastedLines ∧
      (updateSession s (analyzeChange clip "" 0)).deletedLines = s.deletedLines) := by
  refine ⟨?_, ?_, ?_, ?_, ?_⟩
  · rintro ⟨hd, hp⟩
    simp only [analyzeChange, Bool.and_eq_true, Bool.not_eq_true'] at hd hp
    have hcontra := hp.1.1.1
    rw [hd.1, hd.2] at hcontra
    simp at hcontra
  · intro hd
    rw [updateSession_deletedLines, if_pos hd, updateSession_typedLines,
      if_pos hd, updateSession_pastedLines, if_pos hd]
    exact ⟨rfl, rfl, rfl⟩
  · intro hd hp
    rw [updateSession_pastedLines, if_neg (by simp [hd]), if_pos hp,
      updateSession_typedLines, if_neg (by simp [hd]), if_pos hp,
      updateSession_deletedLines, if_neg (by simp [hd])]
    exact ⟨rfl, rfl, rfl⟩
  · intro hd hp
    rw [updateSession_typedLines, if_neg (by simp [hd]), if_neg (by simp [hp]),
      updateSession_pastedLines, if_neg (by simp [hd]), if_neg (by simp [hp]),
      updateSession_deletedLines, if_neg (by simp [hd])]
    exact ⟨rfl, rfl, rfl⟩
  · obtain ⟨he1, he2, he3⟩ := analyzeChange_empty_text clip
    refine ⟨he3, ?_, ?_, ?_⟩
    · rw [updateSession_typedLines, if_neg (by simp [he1]), if_neg (by simp [he2]),
        he3, Nat.add_zero]
    · rw [updateSession_pastedLines, if_neg (by simp [he1]), if_neg (by simp [he2])]
    · rw [updateSession_deletedLines, if_neg (by simp [he1])]

theorem classified_update_frame_spot :
    (analyzeChange "c" "hi" 0).isDelete = false ∧
    (analyzeChange "c" "hi" 0).isPaste = false ∧
    (updateSession (getOrCreateSession "f.ts" "/w/f.ts" 0)
        (analyzeChange "c" "hi" 0)).typedLines =
      (getOrCreateSession "f.ts" "/w/f.ts" 0).typedLines +
        (analyzeChange "c" "hi" 0).lineCount :=
  ⟨by decide, by decide,
    ((classified_update_frame "c" "hi" 0 (getOrCreateSession "f.ts" "/w/f.ts" 0)).2.2.2.1
      (by decide) (by decide)).1⟩

